import Mathlib

/-
Verification development for the pi-drop local file/chat hub server.

The definitions below are shallow embeddings of the server source:
the chat-message socket handler with its 1000-entry cap, the
timestamp-prefixed upload filenames and the download name stripping,
the delete endpoint, the startup load of the persisted message list,
the WebSocket connection/broadcast loop, and the two variants of the
system-info endpoint with its 2-second cache and simulated fallback.
-/

/-- A chat message as stored in the in-memory messages array:
`{id, text, timestamp, sender}`, all client-supplied strings. -/
structure Message where
  id : String
  text : String
  timestamp : String
  sender : String
deriving DecidableEq

/-- The `message` branch of the socket handler in the main server:
`messages.unshift(message)` followed by
`if (messages.length > 1000) { messages = messages.slice(0, 1000) }`. -/
def addMessage (msgs : List Message) (m : Message) : List Message :=
  if 1000 < (m :: msgs).length then (m :: msgs).take 1000 else m :: msgs

/-- The same branch in the minimal server variant:
`messages.unshift(message)` followed by
`if (messages.length > 1000) messages.pop()` (removes the last element). -/
def addMessageSrv (msgs : List Message) (m : Message) : List Message :=
  if 1000 < (m :: msgs).length then (m :: msgs).dropLast else m :: msgs

theorem take_thousand_cons {α : Type} (a : α) (l : List α) :
    (a :: l).take 1000 = a :: l.take 999 := rfl

theorem addMessage_take (r : List Message) (a : Message) :
    addMessage (r.take 1000) a = a :: r.take 999 := by
  by_cases h : (1000 : Nat) ≤ r.length
  · have hc : 1000 < (a :: r.take 1000).length := by
      simp [List.length_take]
      omega
    rw [addMessage, if_pos hc, take_thousand_cons, List.take_take]
    norm_num
  · push_neg at h
    have h1 : r.take 1000 = r := List.take_of_length_le (by omega)
    have h2 : r.take 999 = r := List.take_of_length_le (by omega)
    rw [addMessage, h1, h2, if_neg]
    simp
    omega

theorem foldl_addMessage (ms : List Message) :
    List.foldl addMessage [] ms = ms.reverse.take 1000 := by
  induction ms using List.reverseRecOn with
  | nil => rfl
  | append_singleton l a ih =>
    rw [List.foldl_append, List.foldl_cons, List.foldl_nil, ih, List.reverse_append]
    simp only [List.reverse_singleton, List.singleton_append]
    rw [addMessage_take]
    exact (take_thousand_cons a l.reverse).symm

theorem addMessageSrv_eq_addMessage (l : List Message) (m : Message)
    (h : l.length ≤ 1000) : addMessageSrv l m = addMessage l m := by
  rw [addMessageSrv, addMessage]
  by_cases hc : 1000 < (m :: l).length
  · rw [if_pos hc, if_pos hc, List.dropLast_eq_take]
    have hlen : (m :: l).length = 1001 := by
      simp at hc ⊢
      omega
    rw [hlen]
  · rw [if_neg hc, if_neg hc]

/-- Claim C1: starting from an empty list, any sequence of `message` frames
leaves the stored list equal to the newest-first truncation of the inputs to
1000 entries; in particular it never exceeds 1000 entries, and after 1001
messages exactly 1000 remain with the newest at the front and the single
oldest (first-sent) message dropped.  The `pop()` variant of the cap in the
minimal server agrees with the `slice(0, 1000)` variant on every reachable
state. -/
theorem c1_message_cap (ms : List Message) :
    List.foldl addMessage [] ms = ms.reverse.take 1000 ∧
    (List.foldl addMessage [] ms).length ≤ 1000 ∧
    (ms.length = 1001 →
      (List.foldl addMessage [] ms).length = 1000 ∧
      (List.foldl addMessage [] ms).head? = ms.getLast? ∧
      List.foldl addMessage [] ms = (ms.drop 1).reverse) ∧
    ∀ (l : List Message) (m : Message), l.length ≤ 1000 →
      addMessageSrv l m = addMessage l m := by
  refine ⟨foldl_addMessage ms, ?_, ?_, fun l m h => addMessageSrv_eq_addMessage l m h⟩
  · rw [foldl_addMessage]
    exact List.length_take_le _ _
  · intro h1001
    rw [foldl_addMessage]
    refine ⟨?_, ?_, ?_⟩
    · simp [List.length_take, h1001]
    · rw [← List.head?_reverse]
      cases hrev : ms.reverse with
      | nil => rfl
      | cons b t => rw [take_thousand_cons]; rfl
    · cases ms with
      | nil => simp at h1001
      | cons a rest =>
        have hr : rest.reverse.length = 1000 := by
          simp at h1001 ⊢
          omega
        show (a :: rest).reverse.take 1000 = rest.reverse
        rw [List.reverse_cons, List.take_left' hr]

/-- Witness for C1 at a concrete input: 1001 identical messages leave a list
of length exactly 1000, and the two cap variants agree on the empty state. -/
theorem c1_message_cap_witness :
    (List.replicate 1001 (Message.mk "" "" "" "")).length = 1001 ∧
    (List.foldl addMessage [] (List.replicate 1001 (Message.mk "" "" "" ""))).length = 1000 ∧
    addMessageSrv [] (Message.mk "" "" "" "") = addMessage [] (Message.mk "" "" "" "") :=
  ⟨List.length_replicate 1001 _,
    ((c1_message_cap _).2.2.1 (List.length_replicate 1001 _)).1,
    (c1_message_cap []).2.2.2 [] (Message.mk "" "" "" "") (by simp)⟩

/-- A JSON text frame sent from the server to a client over the socket. -/
inductive Frame where
  | init (msgs : List Message)
  | message (m : Message)
  | clear
deriving DecidableEq

/-- The result of `JSON.parse` on an inbound frame: `malformed` when the
parse throws (the handler returns early), otherwise the parsed object with
its `type` string and its `message` field. -/
inductive SocketIn where
  | malformed
  | payload (ptype : String) (msg : Message)
deriving DecidableEq

/-- The observable effects of one run of the `ws.on('message')` callback:
the new in-memory list, what `saveMessages()` writes to the messages file
(`none` when it is not called), and the frames sent to clients by index. -/
structure HandlerResult where
  messages : List Message
  fileWrite : Option (List Message)
  sends : List (Nat × Frame)
deriving DecidableEq

/-- `wss.clients.forEach(client => if (client.readyState === OPEN) client.send(f))`:
clients are modelled by their open flag, in connection order starting at
index `k`. -/
def broadcastFrom (k : Nat) (clients : List Bool) (f : Frame) : List (Nat × Frame) :=
  match clients with
  | [] => []
  | true :: rest => (k, f) :: broadcastFrom (k + 1) rest f
  | false :: rest => broadcastFrom (k + 1) rest f

def broadcast (clients : List Bool) (f : Frame) : List (Nat × Frame) :=
  broadcastFrom 0 clients f

/-- The `ws.on('message')` callback of the main server: parse the frame
(dropping it on a parse error); on `type === 'message'` overwrite the
message's timestamp with the server time, prepend it with the 1000-cap,
persist and broadcast it; on `type === 'clear'` empty the list, persist
and broadcast `{type:'clear'}`; otherwise do nothing. -/
def handleFrame (msgs : List Message) (clients : List Bool) (now : String)
    (inp : SocketIn) : HandlerResult :=
  match inp with
  | .malformed => ⟨msgs, none, []⟩
  | .payload t pm =>
    if t = "message" then
      let m := { pm with timestamp := now }
      let msgs2 := addMessage msgs m
      ⟨msgs2, some msgs2, broadcast clients (Frame.message m)⟩
    else if t = "clear" then
      ⟨[], some [], broadcast clients Frame.clear⟩
    else
      ⟨msgs, none, []⟩

theorem mem_broadcastFrom (clients : List Bool) (k i : Nat) (f g : Frame) :
    (i, f) ∈ broadcastFrom k clients g ↔
      f = g ∧ ∃ j, clients.get? j = some true ∧ i = k + j := by
  induction clients generalizing k with
  | nil => simp [broadcastFrom]
  | cons c rest ih =>
    cases c with
    | true =>
      simp only [broadcastFrom, List.mem_cons, Prod.mk.injEq, ih]
      constructor
      · rintro (⟨hik, hfg⟩ | ⟨hfg, j, hj, hij⟩)
        · exact ⟨hfg, 0, by simp, by omega⟩
        · exact ⟨hfg, j + 1, by simpa using hj, by omega⟩
      · rintro ⟨hfg, j, hj, hij⟩
        cases j with
        | zero => exact Or.inl ⟨by omega, hfg⟩
        | succ j2 => exact Or.inr ⟨hfg, j2, by simpa using hj, by omega⟩
    | false =>
      simp only [broadcastFrom, ih]
      constructor
      · rintro ⟨hfg, j, hj, hij⟩
        exact ⟨hfg, j + 1, by simpa using hj, by omega⟩
      · rintro ⟨hfg, j, hj, hij⟩
        cases j with
        | zero => simp at hj
        | succ j2 => exact ⟨hfg, j2, by simpa using hj, by omega⟩

theorem mem_broadcast (clients : List Bool) (i : Nat) (f g : Frame) :
    (i, f) ∈ broadcast clients g ↔ f = g ∧ clients.get? i = some true := by
  rw [broadcast, mem_broadcastFrom]
  constructor
  · rintro ⟨hfg, j, hj, hij⟩
    exact ⟨hfg, by rwa [show i = j by omega]⟩
  · rintro ⟨hfg, hi⟩
    exact ⟨hfg, i, hi, by omega⟩

/-- Claim C6: a `clear` frame empties the in-memory list, persists the empty
list to the messages file, and sends `{type:'clear'}` exactly to the clients
whose socket is in the OPEN state. -/
theorem c6_clear (msgs : List Message) (clients : List Bool) (now : String)
    (pm : Message) :
    handleFrame msgs clients now (SocketIn.payload "clear" pm) =
      ⟨[], some [], broadcast clients Frame.clear⟩ ∧
    ∀ i, ((i, Frame.clear) ∈ broadcast clients Frame.clear ↔
      clients.get? i = some true) := by
  constructor
  · rw [handleFrame]
    rw [if_neg (by decide), if_pos rfl]
  · intro i
    rw [mem_broadcast]
    simp

/-- Claim C8: a frame that fails to parse, or parses to a `type` that is
neither `message` nor `clear`, leaves the list unchanged, writes nothing to
the messages file and sends nothing to any client. -/
theorem c8_ignore_malformed (msgs : List Message) (clients : List Bool)
    (now : String) :
    handleFrame msgs clients now SocketIn.malformed = ⟨msgs, none, []⟩ ∧
    ∀ (t : String) (pm : Message), t ≠ "message" → t ≠ "clear" →
      handleFrame msgs clients now (SocketIn.payload t pm) = ⟨msgs, none, []⟩ := by
  refine ⟨rfl, fun t pm h1 h2 => ?_⟩
  rw [handleFrame, if_neg h1, if_neg h2]

/-- Witness for C8: a well-formed frame of type `init` is ignored. -/
theorem c8_ignore_malformed_witness :
    handleFrame [] [true] "t" (SocketIn.payload "init" (Message.mk "" "" "" "")) =
      ⟨[], none, []⟩ :=
  (c8_ignore_malformed [] [true] "t").2 "init" (Message.mk "" "" "" "")
    (by decide) (by decide)

/-- The result of `fs.readFileSync(MESSAGES_FILE, 'utf8')` at startup:
`missing` when the read throws (no such file), otherwise the file text. -/
inductive ReadResult where
  | missing
  | content (s : List Char)

/-- The startup load: `messages = JSON.parse(readFileSync(...))` inside a
try/catch whose catch branch sets `messages = []`.  `JSON.parse` is a
library call, modelled as a function returning `none` when it throws. -/
def loadMessages (file : ReadResult)
    (parse : List Char → Option (List Message)) : List Message :=
  match file with
  | .missing => []
  | .content s =>
    match parse s with
    | none => []
    | some ms => ms

/-- Claim C10: if the messages file is missing or its contents fail to
parse, the server starts with the empty list (and the load is total, so
startup does not crash); when the parse succeeds the whole parsed history
is loaded, never a partial one. -/
theorem c10_startup_load (parse : List Char → Option (List Message)) :
    loadMessages ReadResult.missing parse = [] ∧
    (∀ s, parse s = none → loadMessages (ReadResult.content s) parse = []) ∧
    (∀ s ms, parse s = some ms → loadMessages (ReadResult.content s) parse = ms) := by
  refine ⟨rfl, fun s hs => ?_, fun s ms hs => ?_⟩
  · rw [loadMessages, hs]
  · rw [loadMessages, hs]

/-- Witness for C10: a parse that always throws yields the empty list. -/
theorem c10_startup_load_witness :
    loadMessages ReadResult.missing (fun _ => none) = [] ∧
    loadMessages (ReadResult.content ['x']) (fun _ => none) = [] :=
  ⟨(c10_startup_load (fun _ => none)).1,
    (c10_startup_load (fun _ => none)).2.1 ['x'] rfl⟩

/-- The mutable server state observable by the socket layer: the in-memory
message list and the connected sockets' open flags, indexed in connection
order.  Closing a socket clears its flag (the `ws` library removes closed
sockets from `wss.clients`). -/
structure SrvState where
  messages : List Message
  clients : List Bool

/-- One external stimulus to the socket layer. -/
inductive Event where
  | connect
  | frame (inp : SocketIn) (now : String)
  | disconnect (i : Nat)

/-- One event step.  On `connection` the server immediately sends
`{type:'init', messages}` to the new socket before any other traffic;
frames run `handleFrame`; a close clears the socket's open flag. -/
def step (st : SrvState) : Event → SrvState × List (Nat × Frame)
  | .connect =>
    (⟨st.messages, st.clients ++ [true]⟩,
      [(st.clients.length, Frame.init st.messages)])
  | .frame inp now =>
    (⟨(handleFrame st.messages st.clients now inp).messages, st.clients⟩,
      (handleFrame st.messages st.clients now inp).sends)
  | .disconnect i => (⟨st.messages, st.clients.set i false⟩, [])

/-- Run a sequence of events, accumulating every frame sent, tagged with
the index of the receiving client. -/
def run (st : SrvState) : List Event → SrvState × List (Nat × Frame)
  | [] => (st, [])
  | e :: es =>
    ((run (step st e).1 es).1, (step st e).2 ++ (run (step st e).1 es).2)

/-- The frames delivered to client `i`, in order. -/
def framesTo (out : List (Nat × Frame)) (i : Nat) : List Frame :=
  out.filterMap (fun p => if p.1 = i then some p.2 else none)

def isInitB : Frame → Bool
  | .init _ => true
  | _ => false

theorem run_append_fst (st : SrvState) (es1 es2 : List Event) :
    (run st (es1 ++ es2)).1 = (run (run st es1).1 es2).1 := by
  induction es1 generalizing st with
  | nil => rfl
  | cons e es ih => rw [List.cons_append, run, run, ih]

theorem run_append_snd (st : SrvState) (es1 es2 : List Event) :
    (run st (es1 ++ es2)).2 = (run st es1).2 ++ (run (run st es1).1 es2).2 := by
  induction es1 generalizing st with
  | nil => rfl
  | cons e es ih => rw [List.cons_append, run, run, ih, List.append_assoc]

theorem step_clients_mono (st : SrvState) (e : Event) :
    st.clients.length ≤ (step st e).1.clients.length := by
  cases e with
  | connect => simp [step]
  | frame inp now => simp [step]
  | disconnect i => simp [step]

theorem run_clients_mono (st : SrvState) (es : List Event) :
    st.clients.length ≤ (run st es).1.clients.length := by
  induction es generalizing st with
  | nil => exact Nat.le_refl _
  | cons e es ih => exact Nat.le_trans (step_clients_mono st e) (ih (step st e).1)

theorem handleFrame_sends (msgs : List Message) (clients : List Bool)
    (now : String) (inp : SocketIn) :
    ∀ p ∈ (handleFrame msgs clients now inp).sends,
      p.1 < clients.length ∧ isInitB p.2 = false := by
  rintro ⟨i, f⟩ hp
  cases inp with
  | malformed => simp [handleFrame] at hp
  | payload t pm =>
    rw [handleFrame] at hp
    by_cases h1 : t = "message"
    · rw [if_pos h1] at hp
      obtain ⟨hf, hg⟩ := (mem_broadcast clients i f _).mp hp
      obtain ⟨hlt, -⟩ := List.get?_eq_some.mp hg
      exact ⟨hlt, by rw [hf]; rfl⟩
    · rw [if_neg h1] at hp
      by_cases h2 : t = "clear"
      · rw [if_pos h2] at hp
        obtain ⟨hf, hg⟩ := (mem_broadcast clients i f _).mp hp
        obtain ⟨hlt, -⟩ := List.get?_eq_some.mp hg
        exact ⟨hlt, by rw [hf]; rfl⟩
      · rw [if_neg h2] at hp
        simp at hp

theorem step_out_lt (st : SrvState) (e : Event) :
    ∀ p ∈ (step st e).2, p.1 < (step st e).1.clients.length := by
  intro p hp
  cases e with
  | connect =>
    simp only [step, List.mem_singleton] at hp
    simp [hp, step]
  | frame inp now =>
    exact (handleFrame_sends st.messages st.clients now inp p hp).1
  | disconnect i => simp [step] at hp

theorem step_out_init (st : SrvState) (e : Event) :
    ∀ p ∈ (step st e).2, isInitB p.2 = true → st.clients.length ≤ p.1 := by
  intro p hp hinit
  cases e with
  | connect =>
    simp only [step, List.mem_singleton] at hp
    simp [hp]
  | frame inp now =>
    rw [(handleFrame_sends st.messages st.clients now inp p hp).2] at hinit
    cases hinit
  | disconnect i => simp [step] at hp

theorem run_out_lt (st : SrvState) (es : List Event) :
    ∀ p ∈ (run st es).2, p.1 < (run st es).1.clients.length := by
  induction es generalizing st with
  | nil => simp [run]
  | cons e es ih =>
    intro p hp
    rw [run, List.mem_append] at hp
    rcases hp with hp | hp
    · exact Nat.lt_of_lt_of_le (step_out_lt st e p hp)
        (by rw [run]; exact run_clients_mono (step st e).1 es)
    · rw [run]
      exact ih (step st e).1 p hp

theorem run_out_init (st : SrvState) (es : List Event) :
    ∀ p ∈ (run st es).2, isInitB p.2 = true → st.clients.length ≤ p.1 := by
  induction es generalizing st with
  | nil => simp [run]
  | cons e es ih =>
    intro p hp hinit
    rw [run, List.mem_append] at hp
    rcases hp with hp | hp
    · exact step_out_init st e p hp hinit
    · exact Nat.le_trans (step_clients_mono st e) (ih (step st e).1 p hp hinit)

theorem framesTo_append (o1 o2 : List (Nat × Frame)) (i : Nat) :
    framesTo (o1 ++ o2) i = framesTo o1 i ++ framesTo o2 i :=
  List.filterMap_append o1 o2 _

theorem framesTo_eq_nil (out : List (Nat × Frame)) (i : Nat)
    (h : ∀ p ∈ out, p.1 ≠ i) : framesTo out i = [] :=
  List.filterMap_eq_nil_iff.mpr fun p hp => by rw [if_neg (h p hp)]

theorem mem_framesTo (out : List (Nat × Frame)) (i : Nat) (f : Frame) :
    f ∈ framesTo out i ↔ (i, f) ∈ out := by
  rw [framesTo, List.mem_filterMap]
  constructor
  · rintro ⟨⟨a1, a2⟩, ha, hif⟩
    by_cases h : a1 = i
    · rw [if_pos h] at hif
      cases hif
      rw [← h]
      exact ha
    · rw [if_neg h] at hif
      cases hif
  · intro h
    exact ⟨(i, f), h, by simp⟩

/-- Claim C9: in any server run from startup, the new client of every
`connection` event receives, before any other traffic addressed to it,
exactly one `{type:'init', messages:[...]}` frame, whose payload is the
in-memory message list at connection time. -/
theorem c9_init_on_connect (ms : List Message) (es1 es2 : List Event) :
    (framesTo (run ⟨ms, []⟩ (es1 ++ Event.connect :: es2)).2
        (run ⟨ms, []⟩ es1).1.clients.length).head? =
      some (Frame.init (run ⟨ms, []⟩ es1).1.messages) ∧
    (framesTo (run ⟨ms, []⟩ (es1 ++ Event.connect :: es2)).2
        (run ⟨ms, []⟩ es1).1.clients.length).countP isInitB = 1 := by
  have h2 : (run ⟨ms, []⟩ (es1 ++ Event.connect :: es2)).2 =
      (run ⟨ms, []⟩ es1).2 ++
        ((step (run ⟨ms, []⟩ es1).1 Event.connect).2 ++
          (run (step (run ⟨ms, []⟩ es1).1 Event.connect).1 es2).2) := by
    rw [run_append_snd, run]
  have ho1 : framesTo (run ⟨ms, []⟩ es1).2 (run ⟨ms, []⟩ es1).1.clients.length = [] :=
    framesTo_eq_nil _ _ fun p hp => Nat.ne_of_lt (run_out_lt _ es1 p hp)
  have hstep : framesTo (step (run ⟨ms, []⟩ es1).1 Event.connect).2
      (run ⟨ms, []⟩ es1).1.clients.length =
      [Frame.init (run ⟨ms, []⟩ es1).1.messages] := by
    simp [step, framesTo]
  have ho2 : ∀ f ∈ framesTo (run (step (run ⟨ms, []⟩ es1).1 Event.connect).1 es2).2
      (run ⟨ms, []⟩ es1).1.clients.length, isInitB f = false := by
    intro f hf
    by_contra hinit
    have hini : isInitB f = true := by
      cases hb : isInitB f
      · exact absurd hb hinit
      · rfl
    have hge := run_out_init _ es2 _ ((mem_framesTo _ _ _).mp hf) hini
    simp [step] at hge
  rw [h2, framesTo_append, framesTo_append, ho1, hstep]
  constructor
  · rfl
  · rw [List.countP_append, List.countP_append]
    have hz : (framesTo (run (step (run ⟨ms, []⟩ es1).1 Event.connect).1 es2).2
        (run ⟨ms, []⟩ es1).1.clients.length).countP isInitB = 0 :=
      List.countP_eq_zero.mpr fun f hf => by rw [ho2 f hf]; exact Bool.false_ne_true
    rw [hz]
    rfl

/-- One decimal digit character, as produced by JavaScript number-to-string
conversion. -/
def digitChar (d : Nat) : Char :=
  match d with
  | 0 => '0'
  | 1 => '1'
  | 2 => '2'
  | 3 => '3'
  | 4 => '4'
  | 5 => '5'
  | 6 => '6'
  | 7 => '7'
  | 8 => '8'
  | _ => '9'

/-- Decimal rendering of a natural number (most significant digit first),
the `${timestamp}` part of the template literal in the multer filename
callback. -/
def natToDigitsAux (n : Nat) (acc : List Char) : List Char :=
  if _h : n < 10 then digitChar n :: acc
  else natToDigitsAux (n / 10) (digitChar (n % 10) :: acc)
termination_by n
decreasing_by exact Nat.div_lt_self (by omega) (by omega)

def natToDigits (n : Nat) : List Char := natToDigitsAux n []

theorem digitChar_isDigit (d : Nat) : (digitChar d).isDigit = true := by
  rcases d with _|_|_|_|_|_|_|_|_|d <;> rfl

theorem digitChar_toNat (d : Nat) (h : d < 10) : (digitChar d).toNat = 48 + d := by
  interval_cases d <;> rfl

theorem natToDigitsAux_lt (n : Nat) (acc : List Char) (h : n < 10) :
    natToDigitsAux n acc = digitChar n :: acc := by
  rw [natToDigitsAux]
  exact dif_pos h

theorem natToDigitsAux_ge (n : Nat) (acc : List Char) (h : ¬ n < 10) :
    natToDigitsAux n acc = natToDigitsAux (n / 10) (digitChar (n % 10) :: acc) := by
  rw [natToDigitsAux]
  exact dif_neg h

theorem natToDigitsAux_append (n : Nat) (acc : List Char) :
    natToDigitsAux n acc = natToDigitsAux n [] ++ acc := by
  induction n using Nat.strong_induction_on generalizing acc with
  | _ n ih =>
    by_cases h : n < 10
    · rw [natToDigitsAux_lt n acc h, natToDigitsAux_lt n [] h]
      rfl
    · rw [natToDigitsAux_ge n acc h, natToDigitsAux_ge n [] h,
        ih (n / 10) (Nat.div_lt_self (by omega) (by omega)),
        ih (n / 10) (Nat.div_lt_self (by omega) (by omega))
          (digitChar (n % 10) :: [])]
      rw [List.append_assoc]
      rfl

theorem natToDigitsAux_digits (n : Nat) :
    ∀ acc : List Char, (∀ c ∈ acc, c.isDigit = true) →
      ∀ c ∈ natToDigitsAux n acc, c.isDigit = true := by
  induction n using Nat.strong_induction_on with
  | _ n ih =>
    intro acc hacc c hc
    by_cases h : n < 10
    · rw [natToDigitsAux_lt n acc h] at hc
      rcases List.mem_cons.mp hc with h1 | h2
      · rw [h1]
        exact digitChar_isDigit n
      · exact hacc c h2
    · rw [natToDigitsAux_ge n acc h] at hc
      refine ih (n / 10) (Nat.div_lt_self (by omega) (by omega)) _ ?_ c hc
      intro x hx
      rcases List.mem_cons.mp hx with h1 | h2
      · rw [h1]
        exact digitChar_isDigit _
      · exact hacc x h2

theorem natToDigits_all_digit (n : Nat) : ∀ c ∈ natToDigits n, c.isDigit = true :=
  natToDigitsAux_digits n [] (by simp)

theorem natToDigitsAux_ne_nil (n : Nat) : ∀ acc, natToDigitsAux n acc ≠ [] := by
  induction n using Nat.strong_induction_on with
  | _ n ih =>
    intro acc
    by_cases h : n < 10
    · rw [natToDigitsAux_lt n acc h]
      exact List.cons_ne_nil _ _
    · rw [natToDigitsAux_ge n acc h]
      exact ih (n / 10) (Nat.div_lt_self (by omega) (by omega)) _

theorem natToDigits_ne_nil (n : Nat) : natToDigits n ≠ [] :=
  natToDigitsAux_ne_nil n []

/-- Proof-side inverse of the decimal rendering, used only to show the
rendering is injective. -/
def decimalVal (l : List Char) : Nat :=
  l.foldl (fun x c => x * 10 + (c.toNat - 48)) 0

theorem decimalVal_natToDigits (n : Nat) : decimalVal (natToDigits n) = n := by
  induction n using Nat.strong_induction_on with
  | _ n ih =>
    by_cases h : n < 10
    · rw [natToDigits, natToDigitsAux_lt n [] h]
      show 0 * 10 + ((digitChar n).toNat - 48) = n
      rw [digitChar_toNat n h]
      omega
    · rw [natToDigits, natToDigitsAux_ge n [] h, natToDigitsAux_append]
      rw [decimalVal, List.foldl_append]
      show decimalVal (natToDigits (n / 10)) * 10 + ((digitChar (n % 10)).toNat - 48) = n
      rw [ih (n / 10) (Nat.div_lt_self (by omega) (by omega)),
        digitChar_toNat _ (Nat.mod_lt n (by omega))]
      omega

theorem natToDigits_inj (a b : Nat) (h : natToDigits a = natToDigits b) : a = b := by
  rw [← decimalVal_natToDigits a, ← decimalVal_natToDigits b, h]

/-- The stored filename from the multer storage callback:
`${timestamp}-${originalName}` with `timestamp = Date.now()`. -/
def storedName (ts : Nat) (orig : List Char) : List Char :=
  natToDigits ts ++ '-' :: orig

/-- `filename.replace` with the regex `^\d+-`: the greedy match consumes the maximal
leading run of digits; it succeeds exactly when that run is nonempty and is
followed by a hyphen (backtracking cannot shorten the run, because the
character after a shorter run is still a digit, not a hyphen). -/
def stripTimestamp (s : List Char) : List Char :=
  if (s.takeWhile Char.isDigit).length = 0 then s
  else
    match s.drop (s.takeWhile Char.isDigit).length with
    | '-' :: rest => rest
    | _ => s

theorem takeWhile_digits (ds rest : List Char)
    (h : ∀ c ∈ ds, c.isDigit = true) :
    (ds ++ '-' :: rest).takeWhile Char.isDigit = ds := by
  induction ds with
  | nil => rfl
  | cons c t ih =>
    rw [List.cons_append, List.takeWhile_cons, if_pos (h c (List.mem_cons_self c t)),
      ih (fun x hx => h x (List.mem_cons_of_mem c hx))]

theorem stripTimestamp_append (ds rest : List Char) (hne : ds ≠ [])
    (h : ∀ c ∈ ds, c.isDigit = true) :
    stripTimestamp (ds ++ '-' :: rest) = rest := by
  have h1 := takeWhile_digits ds rest h
  have h2 : (ds ++ '-' :: rest).drop ds.length = '-' :: rest :=
    List.drop_left ds ('-' :: rest)
  unfold stripTimestamp
  rw [h1, h2, if_neg (fun hlen => hne (List.length_eq_zero.mp hlen))]
  rfl

theorem stripTimestamp_storedName (ts : Nat) (orig : List Char) :
    stripTimestamp (storedName ts orig) = orig :=
  stripTimestamp_append _ _ (natToDigits_ne_nil ts) (natToDigits_all_digit ts)

/-- The uploads directory: a map from filename to stored bytes.  The
filesystem is the source of truth; no metadata database exists. -/
def FS : Type := List Char → Option (List Nat)

/-- POST /api/upload for one file: multer writes the request body to
`UPLOADS_DIR/${timestamp}-${originalName}`. -/
def uploadFile (fs : FS) (ts : Nat) (orig : List Char) (data : List Nat) : FS :=
  fun m => if m = storedName ts orig then some data else fs m

/-- GET /api/download/:filename: 404 when the path does not exist, else the
stored bytes together with the `Content-Disposition` display name
`filename.replace` with the regex `^\d+-`. -/
def downloadFile (fs : FS) (name : List Char) : Option (List Nat × List Char) :=
  match fs name with
  | none => none
  | some data => some (data, stripTimestamp name)

/-- DELETE /api/files/:filename: `if (fs.existsSync(filePath))
fs.unlinkSync(filePath); res.json({ success: true })`. -/
def deleteFile (fs : FS) (name : List Char) : Bool × FS :=
  if (fs name).isSome then (true, fun m => if m = name then none else fs m)
  else (true, fs)

/-- Claim C2: downloading an uploaded file by its stored name returns the
uploaded bytes unchanged, and the display name recovers the original upload
name exactly — stripping the regex `^\d+-` from `${Date.now()}-${originalName}`
yields `originalName` for every original name, including names that start
with digits followed by a hyphen. -/
theorem c2_download_roundtrip (fs : FS) (ts : Nat) (orig : List Char)
    (data : List Nat) :
    downloadFile (uploadFile fs ts orig data) (storedName ts orig) =
      some (data, orig) ∧
    stripTimestamp (storedName ts orig) = orig := by
  have hs := stripTimestamp_storedName ts orig
  refine ⟨?_, hs⟩
  unfold downloadFile uploadFile
  rw [if_pos rfl, hs]

/-- One upload operation: its `Date.now()` value, the client-sent original
name, and the uploaded bytes. -/
structure UploadOp where
  ts : Nat
  orig : List Char
  data : List Nat
deriving DecidableEq

def storedOf (op : UploadOp) : List Char := storedName op.ts op.orig

/-- Counterexample to C4 as stated: two distinct upload operations in the
same `Date.now()` millisecond with the same original name receive the same
stored filename, so the timestamp prefix alone does not guarantee
uniqueness. -/
theorem c4_counterexample :
    ¬ ∀ (a b : UploadOp), a ≠ b → storedOf a ≠ storedOf b :=
  fun h => h ⟨100, ['a'], [0]⟩ ⟨100, ['a'], [1]⟩ (by decide) rfl

theorem digits_dash_inj :
    ∀ d1 d2 r1 r2 : List Char, (∀ c ∈ d1, c.isDigit = true) →
      (∀ c ∈ d2, c.isDigit = true) →
      d1 ++ '-' :: r1 = d2 ++ '-' :: r2 → d1 = d2 ∧ r1 = r2 := by
  intro d1
  induction d1 with
  | nil =>
    intro d2 r1 r2 h1 h2 he
    cases d2 with
    | nil => simpa using he
    | cons c2 t2 =>
      rw [List.nil_append, List.cons_append] at he
      injection he with hc htl
      exact absurd (h2 c2 (List.mem_cons_self c2 t2)) (by rw [← hc]; decide)
  | cons c1 t1 ih =>
    intro d2 r1 r2 h1 h2 he
    cases d2 with
    | nil =>
      rw [List.cons_append, List.nil_append] at he
      injection he with hc htl
      exact absurd (h1 c1 (List.mem_cons_self c1 t1)) (by rw [hc]; decide)
    | cons c2 t2 =>
      rw [List.cons_append, List.cons_append] at he
      injection he with hc htl
      obtain ⟨hd, hr⟩ := ih t2 r1 r2 (fun x hx => h1 x (List.mem_cons_of_mem c1 hx))
        (fun x hx => h2 x (List.mem_cons_of_mem c2 hx)) htl
      exact ⟨by rw [hc, hd], hr⟩

/-- Claim C4 (amended): stored filenames collide exactly when both the
timestamp and the original name coincide; distinct `Date.now()` values
therefore guarantee distinct stored filenames even for equal original
names (and even for original names that themselves start with digits and
a hyphen), but uploads sharing a millisecond and a name collide. -/
theorem c4_filename_unique (ts1 ts2 : Nat) (o1 o2 : List Char) :
    storedName ts1 o1 = storedName ts2 o2 ↔ ts1 = ts2 ∧ o1 = o2 := by
  constructor
  · intro h
    obtain ⟨hd, hr⟩ := digits_dash_inj (natToDigits ts1) (natToDigits ts2) o1 o2
      (natToDigits_all_digit ts1) (natToDigits_all_digit ts2) h
    exact ⟨natToDigits_inj ts1 ts2 hd, hr⟩
  · rintro ⟨h1, h2⟩
    rw [h1, h2]

/-- Claim C5: DELETE always answers `{success: true}`, whether or not the
file exists; a missing file leaves the directory untouched, an existing
file is unlinked and nothing else changes. -/
theorem c5_delete (fs : FS) (name : List Char) :
    (deleteFile fs name).1 = true ∧
    (deleteFile fs name).2 name = none ∧
    (∀ m, m ≠ name → (deleteFile fs name).2 m = fs m) ∧
    (fs name = none → (deleteFile fs name).2 = fs) := by
  by_cases h : (fs name).isSome
  · refine ⟨by rw [deleteFile, if_pos h], ?_, ?_, ?_⟩
    · rw [deleteFile, if_pos h]
      simp
    · intro m hm
      rw [deleteFile, if_pos h]
      simp [hm]
    · intro hnone
      rw [hnone] at h
      simp at h
  · have hn : fs name = none := Option.not_isSome_iff_eq_none.mp h
    exact ⟨by rw [deleteFile, if_neg h], by rw [deleteFile, if_neg h]; exact hn,
      fun m hm => by rw [deleteFile, if_neg h], fun _ => by rw [deleteFile, if_neg h]⟩

/-- Witness for C5 on the empty directory: deleting a nonexistent file
answers success and changes nothing. -/
theorem c5_delete_witness :
    (deleteFile (fun _ => none) ['a']).1 = true ∧
    (deleteFile (fun _ => none) ['a']).2 = (fun _ => none) ∧
    (deleteFile (fun _ => none) ['a']).2 ['b'] = none :=
  ⟨(c5_delete (fun _ => none) ['a']).1,
    (c5_delete (fun _ => none) ['a']).2.2.2 rfl,
    (c5_delete (fun _ => none) ['a']).2.2.1 ['b'] (by decide)⟩

/-- One mounted filesystem as reported by `si.fsSize()`. -/
structure DiskInfo where
  mount : List Char
  used : ℚ
  size : ℚ
deriving DecidableEq

/-- The values produced by the OS queries awaited inside the `try` block of
`getSystemInfo` (`si.currentLoad()`, `si.mem()`, `si.fsSize()`, the uptime
query, and the non-throwing `getCPUTemperature()`). -/
structure RawMetrics where
  currentLoad : ℚ
  memUsed : ℚ
  memTotal : ℚ
  disks : List DiskInfo
  uptimeSec : Nat
  temperature : ℚ
deriving DecidableEq

/-- The JSON payload answered by GET /api/system-info. -/
structure Payload where
  ipAddress : List Char
  cpuUsage : ℚ
  memoryUsage : ℚ
  diskUsage : ℚ
  temperature : ℚ
  uptime : List Char
  timestamp : Nat
  error : Option (List Char)
deriving DecidableEq

/-- The module-level mutable cache: `systemInfoCache` (null at startup) and
`lastUpdate` (0 at startup). -/
structure SIState where
  cache : Option Payload
  lastUpdate : Nat
deriving DecidableEq

/-- The per-call inputs of one getSystemInfo invocation: `Date.now()`, the
OS query results (`none` when one of the awaited queries rejects, which
lands in the catch branch), the resolved local IP, `os.uptime()`, and the
`Math.random()` draws used by the fallback branch. -/
structure CallInput where
  now : Nat
  os : Option RawMetrics
  ip : List Char
  uptimeSec : Nat
  r1 : ℚ
  r2 : ℚ
  r3 : ℚ
  r4 : ℚ
deriving DecidableEq

/-- `Math.round(x * 10) / 10` (JavaScript `Math.round` rounds half toward
positive infinity, which is exactly Mathlib `round` on ℚ). -/
def roundTenths (q : ℚ) : ℚ := ((round (q * 10) : ℤ) : ℚ) / 10

/-- `formatUptime(seconds)`: `"Xd Xh Xm"` with the day and hour parts
omitted when zero.  The source's final `.trim()` is a no-op because the
string always ends in `m` and never starts with a space. -/
def formatUptime (seconds : Nat) : List Char :=
  (if 0 < seconds / 86400 then natToDigits (seconds / 86400) ++ ['d', ' '] else []) ++
  (if 0 < seconds % 86400 / 3600 then
    natToDigits (seconds % 86400 / 3600) ++ ['h', ' '] else []) ++
  (natToDigits (seconds % 3600 / 60) ++ ['m'])

/-- The success payload of `getSystemInfo` in `src/server/index.js`.
`cpu.currentLoad || 0` is the identity here (0 stays 0); the `|| 0` on the
memory percentage catches the division by a zero total, which the ℚ
convention `x / 0 = 0` already yields; the root disk is
`disk.find(d => d.mount === '/') || disk[0]`, with no guard on
`size = 0`. -/
def computeIdx (inp : CallInput) (m : RawMetrics) : Payload :=
  { ipAddress := inp.ip
    cpuUsage := roundTenths m.currentLoad
    memoryUsage := roundTenths (m.memUsed / m.memTotal * 100)
    diskUsage := roundTenths
      (match Option.orElse (m.disks.find? fun d => decide (d.mount = ['/']))
          (fun _ => m.disks.head?) with
        | some d => d.used / d.size * 100
        | none => 0)
    temperature := roundTenths m.temperature
    uptime := formatUptime m.uptimeSec
    timestamp := inp.now
    error := none }

/-- The catch-branch payload of `getSystemInfo` in `src/server/index.js`:
raw (unrounded) random values, a fixed `'0d 0h 0m'` uptime, and the
`error` marker. -/
def fallbackIdx (inp : CallInput) : Payload :=
  { ipAddress := inp.ip
    cpuUsage := inp.r1 * 100
    memoryUsage := 35 + inp.r2 * 20
    diskUsage := 42 + inp.r3 * 10
    temperature := 45 + inp.r4 * 15
    uptime := "0d 0h 0m".toList
    timestamp := inp.now
    error := some "Could not fetch real system data".toList }

/-- `getSystemInfo` in `src/server/index.js`: serve the cache when it is
non-null and less than 2000 ms old; otherwise recompute.  The success path
stores the fresh payload in the cache and updates `lastUpdate`; the catch
branch returns the fallback payload WITHOUT touching the cache. -/
def getSystemInfoIdx (st : SIState) (inp : CallInput) : Payload × SIState :=
  match st.cache with
  | some c =>
    if inp.now - st.lastUpdate < 2000 then (c, st)
    else
      match inp.os with
      | some m => (computeIdx inp m, ⟨some (computeIdx inp m), inp.now⟩)
      | none => (fallbackIdx inp, st)
  | none =>
    match inp.os with
    | some m => (computeIdx inp m, ⟨some (computeIdx inp m), inp.now⟩)
    | none => (fallbackIdx inp, st)

/-- The success payload of `getSystemInfo` in the `server.js` variant: the
memory percentage is guarded by `mem.total > 0`, the main disk is
`disk.find(d => d.mount === '/' || d.mount === 'C:') || disk[0]` and its
usage is guarded by `size > 0`. -/
def computeSrv (inp : CallInput) (m : RawMetrics) : Payload :=
  { ipAddress := inp.ip
    cpuUsage := roundTenths m.currentLoad
    memoryUsage := roundTenths
      (if 0 < m.memTotal then m.memUsed / m.memTotal * 100 else 0)
    diskUsage := roundTenths
      (match Option.orElse
          (m.disks.find? fun d =>
            decide (d.mount = ['/']) || decide (d.mount = ['C', ':']))
          (fun _ => m.disks.head?) with
        | some d => if 0 < d.size then d.used / d.size * 100 else 0
        | none => 0)
    temperature := roundTenths m.temperature
    uptime := formatUptime m.uptimeSec
    timestamp := inp.now
    error := none }

/-- The catch-branch payload in the `server.js` variant: rounded simulated
values, a real formatted uptime, and its own `error` marker. -/
def fallbackSrv (inp : CallInput) : Payload :=
  { ipAddress := inp.ip
    cpuUsage := roundTenths (inp.r1 * 50 + 10)
    memoryUsage := roundTenths (35 + inp.r2 * 20)
    diskUsage := roundTenths (42 + inp.r3 * 10)
    temperature := roundTenths (45 + inp.r4 * 15)
    uptime := formatUptime inp.uptimeSec
    timestamp := inp.now
    error := some "Using simulated data - some system metrics unavailable".toList }

/-- `getSystemInfo` in the `server.js` variant: identical cache check, but
the catch branch DOES store the fallback payload in the cache and update
`lastUpdate` before returning it. -/
def getSystemInfoSrv (st : SIState) (inp : CallInput) : Payload × SIState :=
  match st.cache with
  | some c =>
    if inp.now - st.lastUpdate < 2000 then (c, st)
    else
      match inp.os with
      | some m => (computeSrv inp m, ⟨some (computeSrv inp m), inp.now⟩)
      | none => (fallbackSrv inp, ⟨some (fallbackSrv inp), inp.now⟩)
  | none =>
    match inp.os with
    | some m => (computeSrv inp m, ⟨some (computeSrv inp m), inp.now⟩)
    | none => (fallbackSrv inp, ⟨some (fallbackSrv inp), inp.now⟩)

theorem getSystemInfoIdx_miss (st : SIState) (inp : CallInput)
    (hmiss : st.cache = none ∨ 2000 ≤ inp.now - st.lastUpdate) :
    getSystemInfoIdx st inp =
      match inp.os with
      | some m => (computeIdx inp m, ⟨some (computeIdx inp m), inp.now⟩)
      | none => (fallbackIdx inp, st) := by
  rcases hmiss with h | h
  · unfold getSystemInfoIdx
    rw [h]
  · cases hc : st.cache with
    | none =>
      unfold getSystemInfoIdx
      rw [hc]
    | some c =>
      unfold getSystemInfoIdx
      rw [hc]
      exact if_neg (by omega)

theorem getSystemInfoSrv_miss (st : SIState) (inp : CallInput)
    (hmiss : st.cache = none ∨ 2000 ≤ inp.now - st.lastUpdate) :
    getSystemInfoSrv st inp =
      match inp.os with
      | some m => (computeSrv inp m, ⟨some (computeSrv inp m), inp.now⟩)
      | none => (fallbackSrv inp, ⟨some (fallbackSrv inp), inp.now⟩) := by
  rcases hmiss with h | h
  · unfold getSystemInfoSrv
    rw [h]
  · cases hc : st.cache with
    | none =>
      unfold getSystemInfoSrv
      rw [hc]
    | some c =>
      unfold getSystemInfoSrv
      rw [hc]
      exact if_neg (by omega)

theorem getSystemInfoIdx_hit (c : Payload) (lu : Nat) (inp : CallInput)
    (h : inp.now - lu < 2000) :
    getSystemInfoIdx ⟨some c, lu⟩ inp = (c, ⟨some c, lu⟩) := by
  unfold getSystemInfoIdx
  exact if_pos h

theorem getSystemInfoSrv_hit (c : Payload) (lu : Nat) (inp : CallInput)
    (h : inp.now - lu < 2000) :
    getSystemInfoSrv ⟨some c, lu⟩ inp = (c, ⟨some c, lu⟩) := by
  unfold getSystemInfoSrv
  exact if_pos h

/-- Counterexample to C3 as stated: in `src/server/index.js` the catch
branch does not update the cache, so two calls 1000 ms apart that both hit
the fallback (with different `Math.random()` draws) return different
payloads. -/
theorem c3_counterexample :
    ((⟨1000, none, [], 0, 1/2, 0, 0, 0⟩ : CallInput).now -
        (⟨0, none, [], 0, 0, 0, 0, 0⟩ : CallInput).now < 2000) ∧
    (getSystemInfoIdx
        (getSystemInfoIdx ⟨none, 0⟩ ⟨0, none, [], 0, 0, 0, 0, 0⟩).2
        ⟨1000, none, [], 0, 1/2, 0, 0, 0⟩).1 ≠
      (getSystemInfoIdx ⟨none, 0⟩ ⟨0, none, [], 0, 0, 0, 0, 0⟩).1 :=
  ⟨by decide, fun h => absurd (congrArg Payload.timestamp h) (by decide)⟩

/-- Claim C3 (amended): a call that refreshes the cache is followed, by any
call less than 2000 ms later, with the identical cached payload.  In
`src/server/index.js` only a successful computation refreshes the cache
(the fallback branch does not, so a fallback payload is not replayed); in
the `server.js` variant the fallback also refreshes the cache, so there the
guarantee holds regardless of how the refreshing call was computed. -/
theorem c3_cache_within_2s (st : SIState) (in1 in2 : CallInput)
    (hmiss : st.cache = none ∨ 2000 ≤ in1.now - st.lastUpdate)
    (hlt : in2.now - in1.now < 2000) :
    (∀ m, in1.os = some m →
      (getSystemInfoIdx (getSystemInfoIdx st in1).2 in2).1 =
        (getSystemInfoIdx st in1).1) ∧
    (getSystemInfoSrv (getSystemInfoSrv st in1).2 in2).1 =
      (getSystemInfoSrv st in1).1 := by
  constructor
  · intro m hm
    rw [getSystemInfoIdx_miss st in1 hmiss, hm]
    rw [getSystemInfoIdx_hit (computeIdx in1 m) in1.now in2 hlt]
  · rw [getSystemInfoSrv_miss st in1 hmiss]
    cases hos : in1.os with
    | some m => rw [getSystemInfoSrv_hit (computeSrv in1 m) in1.now in2 hlt]
    | none => rw [getSystemInfoSrv_hit (fallbackSrv in1) in1.now in2 hlt]

/-- Witness for C3 (amended) at concrete inputs: a successful call at t=0
followed by a call at t=1 returns the identical payload, in both server
variants. -/
theorem c3_cache_within_2s_witness :
    (getSystemInfoIdx
        (getSystemInfoIdx ⟨none, 0⟩ ⟨0, some ⟨0, 0, 0, [], 0, 0⟩, [], 0, 0, 0, 0, 0⟩).2
        ⟨1, none, [], 0, 0, 0, 0, 0⟩).1 =
      (getSystemInfoIdx ⟨none, 0⟩ ⟨0, some ⟨0, 0, 0, [], 0, 0⟩, [], 0, 0, 0, 0, 0⟩).1 ∧
    (getSystemInfoSrv
        (getSystemInfoSrv ⟨none, 0⟩ ⟨0, some ⟨0, 0, 0, [], 0, 0⟩, [], 0, 0, 0, 0, 0⟩).2
        ⟨1, none, [], 0, 0, 0, 0, 0⟩).1 =
      (getSystemInfoSrv ⟨none, 0⟩ ⟨0, some ⟨0, 0, 0, [], 0, 0⟩, [], 0, 0, 0, 0, 0⟩).1 :=
  ⟨(c3_cache_within_2s ⟨none, 0⟩ _ _ (Or.inl rfl) (by decide)).1 ⟨0, 0, 0, [], 0, 0⟩ rfl,
    (c3_cache_within_2s ⟨none, 0⟩ _ _ (Or.inl rfl) (by decide)).2⟩

/-- Claim C7: when the OS queries inside `getSystemInfo` throw on a cache
miss, the call still yields a payload (the route's 500 branch is not
taken): the simulated fallback payload carrying numeric random values and
an `error` field, in both server variants; and every payload produced on
the success path has no `error` field. -/
theorem c7_fallback_simulated (st : SIState) (inp : CallInput)
    (hmiss : st.cache = none ∨ 2000 ≤ inp.now - st.lastUpdate)
    (hos : inp.os = none) :
    (getSystemInfoIdx st inp).1 = fallbackIdx inp ∧
    (fallbackIdx inp).error = some "Could not fetch real system data".toList ∧
    (getSystemInfoSrv st inp).1 = fallbackSrv inp ∧
    (fallbackSrv inp).error =
      some "Using simulated data - some system metrics unavailable".toList ∧
    (∀ (st2 : SIState) (inp2 : CallInput) (m2 : RawMetrics), inp2.os = some m2 →
      (st2.cache = none ∨ 2000 ≤ inp2.now - st2.lastUpdate) →
      (getSystemInfoIdx st2 inp2).1.error = none ∧
      (getSystemInfoSrv st2 inp2).1.error = none) := by
  refine ⟨?_, rfl, ?_, rfl, ?_⟩
  · rw [getSystemInfoIdx_miss st inp hmiss, hos]
  · rw [getSystemInfoSrv_miss st inp hmiss, hos]
  · intro st2 inp2 m2 hm2 hmiss2
    constructor
    · rw [getSystemInfoIdx_miss st2 inp2 hmiss2, hm2]
      rfl
    · rw [getSystemInfoSrv_miss st2 inp2 hmiss2, hm2]
      rfl

/-- Witness for C7 at concrete inputs: a failing cold call falls back in
both variants, and a succeeding cold call produces no error field. -/
theorem c7_fallback_simulated_witness :
    (getSystemInfoIdx ⟨none, 0⟩ ⟨0, none, [], 0, 0, 0, 0, 0⟩).1 =
      fallbackIdx ⟨0, none, [], 0, 0, 0, 0, 0⟩ ∧
    (getSystemInfoIdx ⟨none, 0⟩ ⟨0, some ⟨0, 0, 0, [], 0, 0⟩, [], 0, 0, 0, 0, 0⟩).1.error =
      none :=
  ⟨(c7_fallback_simulated ⟨none, 0⟩ ⟨0, none, [], 0, 0, 0, 0, 0⟩ (Or.inl rfl) rfl).1,
    ((c7_fallback_simulated ⟨none, 0⟩ ⟨0, none, [], 0, 0, 0, 0, 0⟩ (Or.inl rfl) rfl).2.2.2.2
      ⟨none, 0⟩ ⟨0, some ⟨0, 0, 0, [], 0, 0⟩, [], 0, 0, 0, 0, 0⟩ ⟨0, 0, 0, [], 0, 0⟩
      rfl (Or.inl rfl)).1⟩
